import Mathlib

/-!
Verification of the av-vortex JSON-RPC 2.0 server/client runtime.

Shallow embedding of the Go packages `rpc` and `rpc/json2`:

* machine strings/bytes become `String`/`List Char`,
* Go `error` values flowing through the dispatcher become `GoError`
  (either a `*rpc.ServerError` or a plain `errors.New` value, mirroring
  the dynamic type test `err.(*ServerError)`),
* the mutable package global `rpc.ErrMethodNotFound` becomes an explicit
  state record `RpcGlobals` threaded through `Service.call`, with returned
  errors represented as references (`ErrorRef`) so aliasing of the global
  is observable,
* `*json.RawMessage` request ids are kept as raw byte strings
  (`Option String`, `none` = nil pointer) because the code echoes them
  byte-for-byte; `*json.RawMessage` params are kept as parsed JSON values
  (`Option Json`, `none` = nil pointer) because only their decoded content
  is ever consumed,
* Go panics (nil-pointer dereferences) surface as the `Outcome.panicked`
  constructor; an unrecovered panic kills the goroutine, so a panicking
  loop body performs no channel send.
-/

namespace AvVortex

/-- JSON values, as produced by Go's `encoding/json` decoder.  Numbers are
restricted to integers, which covers every value exercised here. -/
inductive Json where
  | null : Json
  | bool (b : Bool) : Json
  | num (n : Int) : Json
  | str (s : String) : Json
  | arr (elems : List Json) : Json
  | obj (members : List (String × Json)) : Json

/-- Outcome of running a piece of Go code that may panic (an unrecovered
runtime error such as a nil-pointer dereference). -/
inductive Outcome (α : Type) where
  | ok (a : α) : Outcome α
  | panicked (msg : String) : Outcome α
deriving DecidableEq

/-- Go's runtime message for dereferencing a nil pointer. -/
def nilDeref : String := "runtime error: invalid memory address or nil pointer dereference"

/-- Error codes of `rpc/errors.go` (`const` block, lines 10-17). -/
def ERR_PARSE : Int := -32700

/-- Invalid-request code from `rpc/errors.go`. -/
def ERR_INVALID_REQ : Int := -32600

/-- Method-not-found code from `rpc/errors.go`. -/
def ERR_NO_METHOD : Int := -32601

/-- Invalid-params code from `rpc/errors.go`. -/
def ERR_BAD_PARAMS : Int := -32602

/-- Internal-error code from `rpc/errors.go`. -/
def ERR_INTERNAL : Int := -32603

/-- Server-error code from `rpc/errors.go`. -/
def ERR_SERVER : Int := -32000

/-- Embedding of `rpc.ServerError` (code, message, data).  The `Data`
field is `interface{}` in Go; every value stored in it by this code base
is either nil or a method-name string, so it is modelled as
`Option String`. -/
structure ServerError where
  code : Int
  message : String
  data : Option String
deriving DecidableEq

/-- A Go `error` value as it flows through the dispatcher: either a
`*rpc.ServerError` or any other error (created by `errors.New`), carrying
only its `Error()` text.  Mirrors the dynamic type test
`err.(*ServerError)`. -/
inductive GoError where
  | serverError (e : ServerError) : GoError
  | plain (msg : String) : GoError
deriving DecidableEq

/-- Mutable package-global state of package `rpc`: the `Data` field of the
shared `ErrMethodNotFound` value (`rpc/errors.go` line 22), which
`Service.Call` assigns before returning the global. -/
structure RpcGlobals where
  errMethodNotFoundData : Option String
deriving DecidableEq

/-- Initial globals: `ErrMethodNotFound` is created with nil `Data`. -/
def initialGlobals : RpcGlobals := ⟨none⟩

/-- An error value as returned to callers: either a pointer to the shared
package global `ErrMethodNotFound`, or an ordinary (fresh) error value.
Distinguishing the two makes the aliasing of the global observable. -/
inductive ErrorRef where
  | globalErrMethodNotFound : ErrorRef
  | value (e : GoError) : ErrorRef
deriving DecidableEq

/-- Dereference an `ErrorRef` in the current global state.  The global
`ErrMethodNotFound` always has code `ERR_NO_METHOD` and the fixed message
from `rpc/errors.go`; its `Data` is whatever was last stored in it. -/
def readError (g : RpcGlobals) : ErrorRef → GoError
  | .globalErrMethodNotFound =>
      .serverError ⟨ERR_NO_METHOD, "The method does not exist / is not available.",
        g.errMethodNotFoundData⟩
  | .value e => e

/-- Argument and reply values of the registered services.  `vargs`
embeds the test service struct `Args{A, B int}`, `vreply` embeds
`Reply{C int}` (from the `Arith` service the spec's scenarios use). -/
inductive Value where
  | vargs (a b : Int) : Value
  | vreply (c : Int) : Value
deriving DecidableEq

/-- Decode the members of a JSON object into an `Args{A, B}` destination,
starting from the destination's current field values: Go's
`encoding/json` leaves fields absent from the object untouched and
ignores unknown members. -/
def unmarshalArgsFields : Int → Int → List (String × Json) → Except String (Int × Int)
  | a, b, [] => .ok (a, b)
  | a, b, (k, v) :: rest =>
    if k = "A" then
      match v with
      | .num n => unmarshalArgsFields n b rest
      | _ => .error "json: cannot unmarshal JSON value into Go int"
    else if k = "B" then
      match v with
      | .num n => unmarshalArgsFields a n rest
      | _ => .error "json: cannot unmarshal JSON value into Go int"
    else unmarshalArgsFields a b rest

/-- Decode the members of a JSON object into a `Reply{C}` destination. -/
def unmarshalReplyFields : Int → List (String × Json) → Except String Int
  | c, [] => .ok c
  | c, (k, v) :: rest =>
    if k = "C" then
      match v with
      | .num n => unmarshalReplyFields n rest
      | _ => .error "json: cannot unmarshal JSON value into Go int"
    else unmarshalReplyFields c rest

/-- Model of `json.Unmarshal(raw, dest)` for the value shapes used by the
registered services.  A JSON `null` is a no-op that succeeds (stdlib
behaviour); a non-object, non-null document fails with a type error and
leaves the destination unchanged. -/
def unmarshalInto (j : Json) (dest : Value) : Except String Value :=
  match dest with
  | .vargs a0 b0 =>
    match j with
    | .null => .ok (.vargs a0 b0)
    | .obj fields => (unmarshalArgsFields a0 b0 fields).map fun p => Value.vargs p.1 p.2
    | _ => .error "json: cannot unmarshal JSON value into Go struct"
  | .vreply c0 =>
    match j with
    | .null => .ok (.vreply c0)
    | .obj fields => (unmarshalReplyFields c0 fields).map fun c => Value.vreply c
    | _ => .error "json: cannot unmarshal JSON value into Go struct"

/-- Embedding of `json2.jsonRequest` (`rpc/json2/server.go` lines 22-34)
after envelope decoding: the unexported split names, the envelope fields,
and the two `*json.RawMessage` members (`none` = nil pointer).  The id is
kept as its raw wire bytes; the params as their parsed JSON value. -/
structure JsonRequest where
  serviceName : String
  methodName : String
  version : String
  method : String
  params : Option Json
  id : Option String

/-- Embedding of `json2.jsonError` (`rpc/json2/errors.go`): code, message
and optional data. -/
structure JsonError where
  code : Int
  message : String
  data : Option String
deriving DecidableEq

/-- The decoded JSON-RPC request envelope, as produced by
`json.Decoder.Decode` into a `jsonRequest` (the text-to-JSON step is the
Go standard library and is treated as the input boundary). -/
structure Envelope where
  version : String
  method : String
  params : Option Json
  id : Option String

/-- Index of the last `'.'` in a character list, mirroring
`strings.LastIndex(method, ".")`.  Byte and character indices agree
because `'.'` is ASCII and never occurs inside a multi-byte UTF-8
sequence. -/
def lastIndexOfDot : List Char → Option Nat
  | [] => none
  | c :: rest =>
    match lastIndexOfDot rest with
    | some i => some (i + 1)
    | none => if c = '.' then some 0 else none

/-- Embedding of `json2.readRequest` (`rpc/json2/server.go` lines 73-100)
from the decoded envelope on: build the request, reject a version other
than "2.0", locate the last `'.'` of the method string, and split it into
service name (prefix) and method name (suffix).  Like the source, the
partially filled request is returned alongside any error. -/
def readRequest (env : Envelope) : JsonRequest × Option JsonError :=
  let jreq : JsonRequest :=
    { serviceName := "", methodName := "", version := env.version,
      method := env.method, params := env.params, id := env.id }
  if env.version ≠ "2.0" then
    (jreq, some ⟨ERR_INVALID_REQ, "RPC-JSON2: Invalid version", none⟩)
  else
    match lastIndexOfDot env.method.data with
    | none =>
      (jreq, some ⟨ERR_INVALID_REQ,
        "RPC-JSON2: service/method request ill-formed: " ++ env.method, none⟩)
    | some dot =>
      ({ jreq with
          serviceName := ⟨env.method.data.take dot⟩,
          methodName := ⟨env.method.data.drop (dot + 1)⟩ }, none)

/-- Embedding of `jsonRequest.DecodeParams` (`rpc/json2/server.go` lines
44-49).  The `args != nil` guard always passes (the dispatcher hands in a
freshly allocated non-nil pointer), after which `*r.Params` dereferences
the raw-params pointer: when `params` was absent or JSON `null` the
pointer is nil and the dereference panics.  Otherwise `json.Unmarshal`
either updates the destination or fails leaving it unchanged; the
returned pair is (destination value after the call, unmarshal error). -/
def decodeParams (r : JsonRequest) (dest : Value) : Outcome (Value × Option String) :=
  match r.params with
  | none => .panicked nilDeref
  | some j =>
    match unmarshalInto j dest with
    | .ok v => .ok (v, none)
    | .error e => .ok (dest, some e)

/-- Embedding of `rpc.methodType`: the registered method descriptor.
The reflective pieces become: whether the argument type is a pointer
(`argIsPtr`, which decides the `argIsValue` indirection in `Service.Call`
but not the observable value semantics), the zero values materialized by
`reflect.New`, and the method body itself.  A body receives the decoded
argument and the freshly allocated zero reply, and returns the reply it
wrote through the reply pointer together with its `error` result. -/
structure MethodType where
  argIsPtr : Bool
  zeroArg : Value
  zeroReply : Value
  impl : Value → Value → Value × Option GoError

/-- Embedding of `rpc.Service`: name and method map (association list,
standing in for the Go map). -/
structure Service where
  name : String
  method : List (String × MethodType)

/-- Embedding of `rpc.Server`'s `serviceMap`. -/
structure ServerState where
  serviceMap : List (String × Service)

/-- Embedding of `rpc.Result` (`rpc/server.go` lines 29-32): the value
and error produced by one dispatch, both nilable. -/
structure RpcResult where
  value : Option Value
  error : Option ErrorRef
deriving DecidableEq

/-- Embedding of `Service.Call` (`rpc/server.go` lines 232-272).  The
method lookup failure path assigns the request's method name to the
shared global `ErrMethodNotFound.Data` and returns that same global.  On
the found path a fresh zero argument is materialized, `DecodeParams` is
invoked — its error return is discarded by the source, and a panic inside
it aborts the call — a fresh zero reply is materialized, and the method
body is invoked; a non-nil error from the body is returned as-is (no
wrapping), otherwise the reply value is returned. -/
def Service.call (g : RpcGlobals) (s : Service) (req : JsonRequest) :
    RpcGlobals × Outcome (Except ErrorRef Value) :=
  match List.lookup req.methodName s.method with
  | none =>
    ({ errMethodNotFoundData := some req.methodName },
     .ok (.error .globalErrMethodNotFound))
  | some m =>
    match decodeParams req m.zeroArg with
    | .panicked msg => (g, .panicked msg)
    | .ok (argv, _) =>
      match m.impl argv m.zeroReply with
      | (_, some err) => (g, .ok (.error (.value err)))
      | (replyv, none) => (g, .ok (.ok replyv))

/-- Embedding of `Server.ServeRequest` (`rpc/server.go` lines 116-136):
look up the service; a missing service yields a fresh
`NewServerError(ERR_INVALID_REQ, "rpc: can't find service "+name, nil)`;
otherwise delegate to `Service.Call` and package value and error into an
`rpc.Result`. -/
def serveRequest (g : RpcGlobals) (srv : ServerState) (req : JsonRequest) :
    RpcGlobals × Outcome RpcResult :=
  match List.lookup req.serviceName srv.serviceMap with
  | none =>
    let err : ServerError :=
      ⟨ERR_INVALID_REQ, "rpc: can't find service " ++ req.serviceName, none⟩
    (g, .ok { value := none, error := some (.value (.serverError err)) })
  | some s =>
    match Service.call g s req with
    | (g', .panicked msg) => (g', .panicked msg)
    | (g', .ok (.error e)) => (g', .ok { value := none, error := some e })
    | (g', .ok (.ok v)) => (g', .ok { value := some v, error := none })

/-- Translation from internal `rpc` error codes to wire codes, the
`switch` of `newJsonErrorFromError` (`rpc/json2/errors.go`).  Every
reserved code maps to the identically-valued wire constant; unknown codes
pass through unchanged. -/
def codeToJsonCode (c : Int) : Int :=
  if c = ERR_PARSE then ERR_PARSE
  else if c = ERR_INVALID_REQ then ERR_INVALID_REQ
  else if c = ERR_NO_METHOD then ERR_NO_METHOD
  else if c = ERR_BAD_PARAMS then ERR_BAD_PARAMS
  else if c = ERR_INTERNAL then ERR_INTERNAL
  else if c = ERR_SERVER then ERR_SERVER
  else c

/-- Embedding of `newJsonErrorFromError` (`rpc/json2/errors.go` lines
51-77).  The type assertion `err.(*rpc.ServerError)` fails for any plain
error, in which case the source returns nil; otherwise the code is
translated and the message and data are copied over. -/
def newJsonErrorFromError (g : RpcGlobals) (eref : ErrorRef) : Option JsonError :=
  match readError g eref with
  | .plain _ => none
  | .serverError serr => some ⟨codeToJsonCode serr.code, serr.message, serr.data⟩

/-- Embedding of `json2.jsonResponse` (`rpc/json2/server.go` lines
64-69): version, echoed raw id (no omitempty — nil encodes as `null`),
and the two omitempty members `result` and `error`. -/
structure JsonResponse where
  version : String
  id : Option String
  result : Option Value
  error : Option JsonError

/-- Embedding of `json2.writeResponse` (`rpc/json2/server.go` lines
102-127): copy the request's version and raw id pointer into the
response; when the dispatch result carries an error install
`newJsonErrorFromError` of it (which may be nil), otherwise install the
result value. -/
def writeResponse (g : RpcGlobals) (jreq : JsonRequest) (result : RpcResult) : JsonResponse :=
  match result.error with
  | some e =>
    { version := jreq.version, id := jreq.id, result := none,
      error := newJsonErrorFromError g e }
  | none =>
    { version := jreq.version, id := jreq.id, result := result.value,
      error := none }

/-- Serialize a result value the way `encoding/json` marshals the reply
structs of the registered services. -/
def serializeValue : Value → String
  | .vargs a b => "\x7b\"A\":" ++ toString a ++ ",\"B\":" ++ toString b ++ "\x7d"
  | .vreply c => "\x7b\"C\":" ++ toString c ++ "\x7d"

/-- Serialize a `jsonError`; all three members are emitted (`data` has no
omitempty tag and encodes nil as `null`). -/
def serializeJsonError (e : JsonError) : String :=
  "\x7b\"code\":" ++ toString e.code ++ ",\"message\":\"" ++ e.message ++
    "\",\"data\":" ++ (match e.data with | some s => "\"" ++ s ++ "\"" | none => "null") ++ "\x7d"

/-- Bytes emitted for a `*json.RawMessage` member: the raw blob verbatim
(`json.RawMessage.MarshalJSON` is the identity), or `null` for a nil
pointer. -/
def idBytes : Option String → String
  | some raw => raw
  | none => "null"

/-- Bytes of the optional `result` member (omitted when nil). -/
def resultBytes : Option Value → String
  | some v => ",\"result\":" ++ serializeValue v
  | none => ""

/-- Bytes of the optional `error` member (omitted when nil). -/
def errorBytes : Option JsonError → String
  | some e => ",\"error\":" ++ serializeJsonError e
  | none => ""

/-- Wire encoding of a response, member order as declared in the struct:
version, id, result, error.  `json.Encoder.Encode` terminates the
document with a newline. -/
def encodeResponse (r : JsonResponse) : String :=
  "\x7b\"jsonrpc\":\"" ++ r.version ++ "\",\"id\":" ++ idBytes r.id ++
    (resultBytes r.result ++ errorBytes r.error ++ "\x7d\n")

/-- Embedding of the worker loop `rpc.Worker` (`rpc/server.go` lines
191-200) draining a queue: each iteration runs `ServeRequest` and sends
the result on the request's completion channel (channels are named by
`Nat` tags paired with the queued requests).  An unrecovered panic inside
`ServeRequest` kills the goroutine before the send, so the iteration
emits no send and the loop stops. -/
def workerLoop (g : RpcGlobals) (srv : ServerState) :
    List (Nat × JsonRequest) → RpcGlobals × List (Nat × RpcResult) × Option String
  | [] => (g, [], none)
  | (ch, req) :: rest =>
    match serveRequest g srv req with
    | (g', .ok res) =>
      match workerLoop g' srv rest with
      | (g'', sends, p) => (g'', (ch, res) :: sends, p)
    | (g', .panicked msg) => (g', [], some msg)

/-- Embedding of `json2.clientRequest`: the envelope the client
serializes. -/
structure ClientRequest where
  version : String
  method : String
  params : Json
  id : Nat

/-- Embedding of `json2.clientResponse` after envelope decoding: the two
`*json.RawMessage` members as parsed JSON values (`none` = nil pointer,
i.e. member absent or `null`). -/
structure ClientResponse where
  version : String
  id : Nat
  result : Option Json
  error : Option Json

/-- Client-side view of an `rpc.CallResult` handle: the target method,
the arguments, and the caller-supplied reply destination. -/
structure CallHandle where
  serviceMethod : String
  args : Json
  replyDest : Value

/-- Embedding of `client.decodeServerResponse` (`rpc/json2/client.go`
lines 68-85).  When the envelope carries an `error` member the source
calls `json.Unmarshal(*cresp.Error, cres.Error)` where `cres.Error` is a
nil `error` interface: per the `encoding/json` contract Unmarshal of a
non-pointer returns an `InvalidUnmarshalError` and decodes nothing, so
the server's code and message are dropped.  Otherwise `*cresp.Result` is
dereferenced — a nil pointer (member absent) panics — and unmarshalled
into the caller-supplied reply destination.  Returns (error result of the
function, reply destination after the call). -/
def decodeServerResponse (resp : ClientResponse) (replyDest : Value) :
    Outcome (Option String × Value) :=
  match resp.error with
  | some _ => .ok (some "json: Unmarshal(nil)", replyDest)
  | none =>
    match resp.result with
    | none => .panicked nilDeref
    | some j =>
      match unmarshalInto j replyDest with
      | .ok v => .ok (none, v)
      | .error e => .ok (some e, replyDest)

/-- One iteration of the client sender loop `client.sender`
(`rpc/json2/client.go` lines 87-128): increment the sequence counter,
build the request envelope with the new id, run the HTTP round trip
(modelled as a function from the envelope to either an HTTP-level error
or a decoded response), and on each non-panicking path record the call's
terminal error and reply; the iteration ends with exactly one
`call.Done <- call` unless it panicked first.  (`encodeClientRequest`
and `http.NewRequest` cannot fail on the values modelled here; their
error branches also send on `Done` exactly once.) -/
def senderIteration (seq : Nat) (call : CallHandle)
    (transport : ClientRequest → Except String ClientResponse) :
    Nat × Outcome (Option String × Value) :=
  let seq' := seq + 1
  let creq : ClientRequest := ⟨"2.0", call.serviceMethod, call.args, seq'⟩
  match transport creq with
  | .error e => (seq', .ok (some e, call.replyDest))
  | .ok resp =>
    match decodeServerResponse resp call.replyDest with
    | .panicked msg => (seq', .panicked msg)
    | .ok (err?, reply) => (seq', .ok (err?, reply))

/-- Number of values the sender iteration sends on the call's `Done`
channel: one for every completed iteration, none when the body panicked
(the unrecovered panic kills the sender goroutine before the send). -/
def senderDonePublishes : Outcome (Option String × Value) → Nat
  | .ok _ => 1
  | .panicked _ => 0

/-- The `Arith.Add` method body (`rpc/server_test.go`): `reply.C =
args.A + args.B`, nil error. -/
def arithAdd : Value → Value → Value × Option GoError
  | .vargs a b, .vreply _ => (.vreply (a + b), none)
  | _, reply => (reply, none)

/-- The `Arith.Mul` method body: `reply.C = args.A * args.B`, nil
error. -/
def arithMul : Value → Value → Value × Option GoError
  | .vargs a b, .vreply _ => (.vreply (a * b), none)
  | _, reply => (reply, none)

/-- The `Arith.Div` method body: `errors.New("divide by zero")` when
`args.B == 0` (the reply keeps its zero value), otherwise the truncated
quotient, matching Go integer division. -/
def arithDiv : Value → Value → Value × Option GoError
  | .vargs a b, .vreply c =>
    if b = 0 then (.vreply c, some (.plain "divide by zero"))
    else (.vreply (Int.tdiv a b), none)
  | _, reply => (reply, none)

/-- The registered `Arith` service: methods `Add` (value argument),
`Mul` (pointer argument) and `Div` (value argument), all with `Args`
arguments and `*Reply` replies. -/
def arithService : Service :=
  { name := "Arith",
    method :=
      [("Add", ⟨false, .vargs 0 0, .vreply 0, arithAdd⟩),
       ("Mul", ⟨true, .vargs 0 0, .vreply 0, arithMul⟩),
       ("Div", ⟨false, .vargs 0 0, .vreply 0, arithDiv⟩)] }

/-- A server with the `Arith` service registered, as the spec's
end-to-end scenarios assume. -/
def arithServer : ServerState := ⟨[("Arith", arithService)]⟩

/-- The spec's S2 scenario envelope:
`{"jsonrpc":"2.0","method":"Arith.Div","params":{"A":7,"B":0},"id":"x"}`. -/
def divEnv : Envelope :=
  { version := "2.0", method := "Arith.Div",
    params := some (.obj [("A", .num 7), ("B", .num 0)]),
    id := some "\"x\"" }

/-- An envelope whose params cannot be decoded into `Args`: the document
is the JSON string `"bogus"`. -/
def badParamsEnv : Envelope :=
  { version := "2.0", method := "Arith.Add",
    params := some (.str "bogus"), id := some "7" }

/-- An envelope with no `params` member at all (the decoded
`*json.RawMessage` pointer is nil). -/
def noParamsEnv : Envelope :=
  { version := "2.0", method := "Arith.Add", params := none, id := some "1" }

/-- The spec's S4 scenario envelope:
`{"jsonrpc":"2.0","method":"Unknown.X","params":{},"id":3}`. -/
def unknownEnv : Envelope :=
  { version := "2.0", method := "Unknown.X", params := some (.obj []),
    id := some "3" }

/-- The dispatch result the Div-by-zero request actually produces: no
value, and the raw (unwrapped) user error `"divide by zero"`. -/
def divResult : RpcResult :=
  { value := none, error := some (.value (.plain "divide by zero")) }

/-- The one call handle used in the client-side scenarios: a pending
`Arith.Div` call with reply destination at its zero value. -/
def divCall : CallHandle :=
  { serviceMethod := "Arith.Div",
    args := .obj [("A", .num 7), ("B", .num 0)],
    replyDest := .vreply 0 }

/-- A decoded server response carrying neither `result` nor `error`
member — exactly what the buggy server writes for a plain user error. -/
def emptyServerResponse : ClientResponse :=
  { version := "2.0", id := 1, result := none, error := none }

/-- A decoded server response whose `error` member is the wire form of
the method-not-found server error. -/
def errServerResponse : ClientResponse :=
  { version := "2.0", id := 1, result := none,
    error := some (.obj
      [("code", .num (-32601)),
       ("message", .str "The method does not exist / is not available."),
       ("data", .null)]) }

/-- A decoded successful server response, `result` = `{"C":15}`. -/
def okServerResponse : ClientResponse :=
  { version := "2.0", id := 1, result := some (.obj [("C", .num 15)]),
    error := none }

/-- No dot occurs in a character list exactly when `lastIndexOfDot`
finds nothing. -/
theorem lastIndexOfDot_eq_none_iff (l : List Char) :
    lastIndexOfDot l = none ↔ '.' ∉ l := by
  induction l with
  | nil => simp [lastIndexOfDot]
  | cons c rest ih =>
    rw [lastIndexOfDot]
    cases h : lastIndexOfDot rest with
    | some i =>
      have hmem : '.' ∈ rest := by
        by_contra hnot
        rw [ih.mpr hnot] at h
        cases h
      simp [List.mem_cons, hmem]
    | none =>
      have hrest : '.' ∉ rest := ih.mp h
      by_cases hc : c = '.'
      · subst hc
        simp
      · simp only [if_neg hc, List.mem_cons]
        constructor
        · rintro - h'
          rcases h' with h' | h'
          · exact hc h'.symm
          · exact hrest h'
        · intro _
          trivial

/-- Where `lastIndexOfDot` points there is a dot, the list decomposes
around it, and no dot occurs after it (so it is the last one). -/
theorem lastIndexOfDot_spec (l : List Char) (i : Nat)
    (h : lastIndexOfDot l = some i) :
    l.take i ++ '.' :: l.drop (i + 1) = l ∧ '.' ∉ l.drop (i + 1) := by
  induction l generalizing i with
  | nil => cases h
  | cons c rest ih =>
    rw [lastIndexOfDot] at h
    cases hr : lastIndexOfDot rest with
    | some j =>
      rw [hr] at h
      cases h
      obtain ⟨h1, h2⟩ := ih j hr
      constructor
      · simpa using h1
      · simpa using h2
    | none =>
      rw [hr] at h
      by_cases hc : c = '.'
      · rw [if_pos hc] at h
        cases h
        subst hc
        exact ⟨rfl, (lastIndexOfDot_eq_none_iff rest).mp hr⟩
      · rw [if_neg hc] at h
        cases h

/-- On a version-2.0 envelope whose method string has a dot at position
`i` (the last one), `readRequest` succeeds and installs the prefix/suffix
split. -/
theorem readRequest_eq_of_dot (env : Envelope) (hv : env.version = "2.0")
    (i : Nat) (hd : lastIndexOfDot env.method.data = some i) :
    readRequest env =
      ({ serviceName := ⟨env.method.data.take i⟩,
         methodName := ⟨env.method.data.drop (i + 1)⟩,
         version := env.version, method := env.method,
         params := env.params, id := env.id }, none) := by
  unfold readRequest
  rw [if_neg (by simp [hv]), hd]

/-- On a version-2.0 envelope whose method string has no dot,
`readRequest` reports the ill-formed-request error. -/
theorem readRequest_eq_of_no_dot (env : Envelope) (hv : env.version = "2.0")
    (hd : lastIndexOfDot env.method.data = none) :
    readRequest env =
      ({ serviceName := "", methodName := "", version := env.version,
         method := env.method, params := env.params, id := env.id },
       some ⟨ERR_INVALID_REQ,
         "RPC-JSON2: service/method request ill-formed: " ++ env.method, none⟩) := by
  unfold readRequest
  rw [if_neg (by simp [hv]), hd]

/-- C7: for every request envelope whose method string contains at least
one `'.'`, parsing splits the string at the LAST `'.'` into the service
name (prefix) and the method name (suffix) — the two parts reassemble to
the method string and the suffix is dot-free — and every method string
containing no `'.'` is rejected as an invalid request. -/
theorem readRequest_splits_method_at_last_dot (env : Envelope)
    (hv : env.version = "2.0") :
    ('.' ∉ env.method.data →
      (readRequest env).2 = some ⟨ERR_INVALID_REQ,
        "RPC-JSON2: service/method request ill-formed: " ++ env.method, none⟩) ∧
    ('.' ∈ env.method.data →
      (readRequest env).2 = none ∧
      (readRequest env).1.serviceName.data ++
        '.' :: (readRequest env).1.methodName.data = env.method.data ∧
      '.' ∉ (readRequest env).1.methodName.data) := by
  constructor
  · intro hnot
    rw [readRequest_eq_of_no_dot env hv ((lastIndexOfDot_eq_none_iff _).mpr hnot)]
  · intro hmem
    cases hd : lastIndexOfDot env.method.data with
    | none => exact absurd hmem ((lastIndexOfDot_eq_none_iff _).mp hd)
    | some i =>
      obtain ⟨h1, h2⟩ := lastIndexOfDot_spec _ _ hd
      rw [readRequest_eq_of_dot env hv i hd]
      exact ⟨rfl, h1, h2⟩

/-- Witness for C7 at the spec's own example: the envelope method
`"A.B.C"` parses without error into service `"A.B"` and method `"C"`. -/
theorem readRequest_splits_method_at_last_dot_witness :
    ((readRequest ⟨"2.0", "A.B.C", none, none⟩).2 = none ∧
      (readRequest ⟨"2.0", "A.B.C", none, none⟩).1.serviceName.data ++
        '.' :: (readRequest ⟨"2.0", "A.B.C", none, none⟩).1.methodName.data =
          (String.data "A.B.C") ∧
      '.' ∉ (readRequest ⟨"2.0", "A.B.C", none, none⟩).1.methodName.data) ∧
    (readRequest ⟨"2.0", "A.B.C", none, none⟩).1.serviceName = "A.B" ∧
    (readRequest ⟨"2.0", "A.B.C", none, none⟩).1.methodName = "C" := by
  refine ⟨(readRequest_splits_method_at_last_dot ⟨"2.0", "A.B.C", none, none⟩ rfl).2
    (by decide), by decide, by decide⟩

/-- C6: for every response the server writes, the id member is
byte-for-byte identical to the id member of the request it answers — the
raw id blob of the request (of any form: nil/null, string, or numeric
bytes) is copied untouched into the response, and the encoder splices
exactly those bytes (or `null` for a nil blob) into the wire document,
never re-serializing from a typed form. -/
theorem writeResponse_echoes_id_bytes (g : RpcGlobals) (jreq : JsonRequest)
    (res : RpcResult) :
    (writeResponse g jreq res).id = jreq.id ∧
    ∃ tail, encodeResponse (writeResponse g jreq res) =
      "\x7b\"jsonrpc\":\"" ++ jreq.version ++ "\",\"id\":" ++ idBytes jreq.id ++ tail := by
  cases res with
  | mk v e =>
    cases e with
    | none => exact ⟨rfl, _, rfl⟩
    | some err => exact ⟨rfl, _, rfl⟩

/-- C10: whenever `Service.Call` does not find the requested method, it
stores the request's method name into the package-global
`ErrMethodNotFound.Data` and returns that same shared global as its
error; two such failing calls both return the one global reference, and
dereferencing it after the second call observes the second call's method
name through both returned errors. -/
theorem service_call_aliases_global_method_not_found (g : RpcGlobals)
    (s : Service) (r1 r2 : JsonRequest)
    (h1 : List.lookup r1.methodName s.method = none)
    (h2 : List.lookup r2.methodName s.method = none) :
    Service.call g s r1 =
      ({ errMethodNotFoundData := some r1.methodName },
       .ok (.error .globalErrMethodNotFound)) ∧
    Service.call { errMethodNotFoundData := some r1.methodName } s r2 =
      ({ errMethodNotFoundData := some r2.methodName },
       .ok (.error .globalErrMethodNotFound)) ∧
    readError { errMethodNotFoundData := some r2.methodName }
        .globalErrMethodNotFound =
      .serverError ⟨ERR_NO_METHOD,
        "The method does not exist / is not available.", some r2.methodName⟩ := by
  refine ⟨?_, ?_, rfl⟩
  · unfold Service.call
    rw [h1]
  · unfold Service.call
    rw [h2]

/-- Witness for C10: two calls on the registered `Arith` service for the
absent methods `"Nope1"` and `"Nope2"` both return the shared global,
whose `Data` afterwards reads `"Nope2"`. -/
theorem service_call_aliases_global_method_not_found_witness :
    Service.call initialGlobals arithService
        { serviceName := "Arith", methodName := "Nope1", version := "2.0",
          method := "Arith.Nope1", params := none, id := none } =
      ({ errMethodNotFoundData := some "Nope1" },
       .ok (.error .globalErrMethodNotFound)) ∧
    Service.call { errMethodNotFoundData := some "Nope1" } arithService
        { serviceName := "Arith", methodName := "Nope2", version := "2.0",
          method := "Arith.Nope2", params := none, id := none } =
      ({ errMethodNotFoundData := some "Nope2" },
       .ok (.error .globalErrMethodNotFound)) ∧
    readError { errMethodNotFoundData := some "Nope2" }
        .globalErrMethodNotFound =
      .serverError ⟨ERR_NO_METHOD,
        "The method does not exist / is not available.", some "Nope2"⟩ :=
  service_call_aliases_global_method_not_found initialGlobals arithService
    { serviceName := "Arith", methodName := "Nope1", version := "2.0",
      method := "Arith.Nope1", params := none, id := none }
    { serviceName := "Arith", methodName := "Nope2", version := "2.0",
      method := "Arith.Nope2", params := none, id := none }
    rfl rfl

/-- Counterexample for C3: dispatching the spec's S4 request
`{"jsonrpc":"2.0","method":"Unknown.X","params":{},"id":3}` against a
server that only registers `Arith` yields an error whose code is −32600
(invalid request) with nil data — not the method-not-found code −32601
carrying the offending name that the claim asserts. -/
theorem serveRequest_unknown_service_not_method_not_found :
    (serveRequest initialGlobals arithServer (readRequest unknownEnv).1).2 =
      .ok { value := none,
            error := some (.value (.serverError
              ⟨-32600, "rpc: can't find service Unknown", none⟩)) } ∧
    (-32600 : Int) ≠ ERR_NO_METHOD ∧
    (none : Option String) ≠ some "Unknown" := by
  exact ⟨by decide, by decide, by decide⟩

/-- C3 as amended: for every parsed request whose service name is not
present in the registry, the dispatch result is an invalid-request error
with code −32600, message `"rpc: can't find service " + name`, and nil
data. -/
theorem serveRequest_unknown_service_invalid_request (g : RpcGlobals)
    (srv : ServerState) (req : JsonRequest)
    (h : List.lookup req.serviceName srv.serviceMap = none) :
    serveRequest g srv req =
      (g, .ok (RpcResult.mk none (some (.value (.serverError
        ⟨ERR_INVALID_REQ, "rpc: can't find service " ++ req.serviceName, none⟩))))) := by
  unfold serveRequest
  rw [h]

/-- Witness for the amended C3 at the S4 request: `"Unknown"` is not in
the registry and the dispatch result is the −32600 error. -/
theorem serveRequest_unknown_service_invalid_request_witness :
    List.lookup (readRequest unknownEnv).1.serviceName arithServer.serviceMap
      = none ∧
    serveRequest initialGlobals arithServer (readRequest unknownEnv).1 =
      (initialGlobals, .ok (RpcResult.mk none (some (.value (.serverError
        ⟨ERR_INVALID_REQ, "rpc: can't find service Unknown", none⟩))))) := by
  refine ⟨rfl, ?_⟩
  rw [serveRequest_unknown_service_invalid_request initialGlobals arithServer
    (readRequest unknownEnv).1 rfl]
  rfl

/-- C1 (failing input): the spec's S2 request `Arith.Div` with `B = 0`
parses cleanly, dispatches to the raw (unwrapped) user error
`"divide by zero"`, and the written response carries NEITHER a `result`
nor an `error` member — the claimed exactly-one invariant fails because
`newJsonErrorFromError` returns nil for a plain error and `ServeRequest`
never wrapped it into a `*ServerError`. -/
theorem div_response_carries_neither_result_nor_error :
    (readRequest divEnv).2 = none ∧
    (serveRequest initialGlobals arithServer (readRequest divEnv).1).2 =
      .ok divResult ∧
    (writeResponse initialGlobals (readRequest divEnv).1 divResult).result = none ∧
    (writeResponse initialGlobals (readRequest divEnv).1 divResult).error = none := by
  exact ⟨by decide, by decide, rfl, rfl⟩

/-- C2 (failing input): the user method's `"divide by zero"` error is
returned to the codec as a plain error, `newJsonErrorFromError` drops it
(no user-service wrapping happens on the dispatch path), and the full
encoded response for the S2 request contains no error member — in
particular no `error.message` equal to `"divide by zero"` and no
user-service code. -/
theorem div_user_error_dropped_not_wrapped :
    (serveRequest initialGlobals arithServer (readRequest divEnv).1).2 =
      .ok divResult ∧
    newJsonErrorFromError initialGlobals (.value (.plain "divide by zero")) = none ∧
    encodeResponse (writeResponse initialGlobals (readRequest divEnv).1 divResult) =
      "\x7b\"jsonrpc\":\"2.0\",\"id\":\"x\"\x7d\n" := by
  exact ⟨by decide, rfl, rfl⟩

/-- C4 (failing input): for the request `Arith.Add` whose params are the
JSON string `"bogus"`, decoding into the materialized `Args` fails, yet
`Service.Call` discards the error from `DecodeParams` and the dispatch
result is a SUCCESS carrying the zero reply `{C: 0}` — not the claimed
invalid-params (−32602) error. -/
theorem bad_params_decode_error_ignored :
    unmarshalInto (.str "bogus") (.vargs 0 0) =
      .error "json: cannot unmarshal JSON value into Go struct" ∧
    decodeParams (readRequest badParamsEnv).1 (.vargs 0 0) =
      .ok (.vargs 0 0, some "json: cannot unmarshal JSON value into Go struct") ∧
    (serveRequest initialGlobals arithServer (readRequest badParamsEnv).1).2 =
      .ok { value := some (.vreply 0), error := none } := by
  exact ⟨rfl, by decide, by decide⟩

/-- C5 (failing input): a request without a `params` member is accepted
(`readRequest` succeeds), yet the worker loop dereferences the nil params
pointer inside `ServeRequest`, panics, and sends ZERO values on the
request's completion channel; likewise one sender-loop iteration that
receives a response with neither `result` nor `error` member panics on
`*cresp.Result` and publishes ZERO values on the call's `Done`
channel — refuting exactly-once delivery on both sides. -/
theorem accepted_request_gets_zero_completion_sends :
    (readRequest noParamsEnv).2 = none ∧
    workerLoop initialGlobals arithServer [(0, (readRequest noParamsEnv).1)] =
      (initialGlobals, [], some nilDeref) ∧
    (senderIteration 0 divCall (fun _ => .ok emptyServerResponse)).2 =
      .panicked nilDeref ∧
    senderDonePublishes
      (senderIteration 0 divCall (fun _ => .ok emptyServerResponse)).2 = 0 := by
  exact ⟨by decide, by decide, by decide, rfl⟩

/-- C8 (failing input): for a parsed request whose `params` member is
absent (or JSON `null`, which also leaves the raw pointer nil),
`DecodeParams` does not complete with a zero-valued argument — it
dereferences the nil `*json.RawMessage` and panics, taking the whole
dispatch down with it. -/
theorem nil_params_decode_panics :
    (readRequest noParamsEnv).2 = none ∧
    (readRequest noParamsEnv).1.params = none ∧
    decodeParams (readRequest noParamsEnv).1 (.vargs 0 0) = .panicked nilDeref ∧
    (serveRequest initialGlobals arithServer (readRequest noParamsEnv).1).2 =
      .panicked nilDeref := by
  exact ⟨by decide, rfl, by decide, by decide⟩

/-- C9 (failing input): when the received envelope carries an `error`
member, the sender does NOT surface the server's code and message — the
source unmarshals into the handle's nil `error` interface, which fails
with an invalid-unmarshal error that becomes the handle's terminal
error; the published value carries that decode failure instead of the
server's error.  The result branch works: a `result` member is decoded
into the caller-supplied reply destination. -/
theorem server_error_lost_in_nil_interface_unmarshal :
    decodeServerResponse errServerResponse (.vreply 0) =
      .ok (some "json: Unmarshal(nil)", .vreply 0) ∧
    (senderIteration 0 divCall (fun _ => .ok errServerResponse)).2 =
      .ok (some "json: Unmarshal(nil)", .vreply 0) ∧
    decodeServerResponse okServerResponse (.vreply 0) = .ok (none, .vreply 15) := by
  exact ⟨rfl, rfl, rfl⟩

end AvVortex
